import Mathlib

/-!
Verification development for the `tx_processing` repository: a single-pass
batch ledger processor (`src/main.rs`).  The Rust code is shallowly embedded:

* `Record` mirrors the Rust `Record` struct; the `f32` `amount` field is
  modelled with exact rationals `ℚ` (every amount occurring in the properties
  below is exactly representable, and the invariant claims are stated for
  exact arithmetic).
* the `HashMap<u16, ClientInfo>` ledger is modelled as an association list
  `List (Nat × ClientInfo)`; `Ledger.lookup` is `get`/`get_mut`,
  `Ledger.update` is the in-place mutation through `get_mut`, and
  `Ledger.insert` is `HashMap::insert` on a key known to be absent.
* each `handle_*` function is a direct transcription of the corresponding
  Rust handler; `dispatch` is the `match record.tx_type.as_str()` in `run`.
* the CSV layer is modelled by `parseRecord` over pre-split rows
  (`RawRow`), with `csv::invalid_option` semantics for the tolerant
  `client`/`amount` fields and a hard failure for an undecodable `tx`;
  `runRows` is the row loop of `run`, returning `Except.error` for the
  fatal abort path (process exit code 1) and `Except.ok` with the final
  ledger for the successful path.
* `generate_new_client_id` draws from a stream `rng : Nat → Nat` of random
  values (reduced mod 2^16 as `rand::Rng::gen::<u16>()` is); the retry loop
  `while client_map.contains_key(&new_id)` is `Nat.find` on the first draw
  that is not a key, under the hypothesis that the stream eventually
  produces a free id (which holds whenever the stream covers the 16-bit
  space and the ledger has a free 16-bit id).
-/

namespace TxProcessing

/-- One input transaction, as in the Rust `Record` struct: a type tag,
an optional 16-bit client id, a 32-bit transaction id and an optional
amount (`f32` in the source, modelled exactly as `ℚ`). -/
structure Record where
  tx_type : String
  client : Option Nat
  tx : Nat
  amount : Option ℚ
deriving Repr, DecidableEq

/-- Per-client account state, as in the Rust `ClientInfo` struct. -/
structure ClientInfo where
  history : List Record
  available_funds : ℚ
  held_funds : ℚ
  total_funds : ℚ
  locked : Bool
deriving Repr, DecidableEq

/-- The `HashMap<u16, ClientInfo>` ledger, modelled as an association list. -/
abbrev Ledger := List (Nat × ClientInfo)

/-- `client_map.get(&cid)` / `get_mut`: the first binding of the key. -/
def Ledger.lookup : Ledger → Nat → Option ClientInfo
  | [], _ => none
  | (k, v) :: rest, cid => if k = cid then some v else Ledger.lookup rest cid

/-- Mutation through `get_mut`: replace the first binding of the key,
identity when the key is absent. -/
def Ledger.update : Ledger → Nat → ClientInfo → Ledger
  | [], _, _ => []
  | (k, v) :: rest, cid, ci =>
    if k = cid then (k, ci) :: rest else (k, v) :: Ledger.update rest cid ci

/-- `HashMap::insert` on a key that is not yet present. -/
def Ledger.insert (m : Ledger) (cid : Nat) (ci : ClientInfo) : Ledger :=
  (cid, ci) :: m

/-- `client_map.contains_key(&cid)`. -/
def Ledger.containsKey (m : Ledger) (cid : Nat) : Bool :=
  (Ledger.lookup m cid).isSome

/-- Transcription of `handle_deposit` (main.rs:229).  Existing unlocked
client: add the amount (when present) to available and total, and push the
record to history in either case.  Unknown client: create a fresh
`ClientInfo` holding the amount (or zero) with this record as its history.
Locked client or absent client id: no mutation. -/
def handle_deposit (client_map : Ledger) (record : Record) : Ledger :=
  match record.client with
  | none => client_map
  | some client_id =>
    match Ledger.lookup client_map client_id with
    | some info =>
      if info.locked then client_map
      else
        let info' :=
          match record.amount with
          | some value =>
            { info with
              available_funds := info.available_funds + value,
              total_funds := info.total_funds + value }
          | none => info
        Ledger.update client_map client_id
          { info' with history := info'.history ++ [record] }
    | none =>
      let base : ClientInfo :=
        { history := [], available_funds := 0, held_funds := 0,
          total_funds := 0, locked := false }
      let new_info :=
        match record.amount with
        | some value =>
          { base with
            available_funds := base.available_funds + value,
            total_funds := base.total_funds + value }
        | none => base
      Ledger.insert client_map client_id
        { new_info with history := new_info.history ++ [record] }

/-- Transcription of `handle_widthdrawal` (main.rs:272; the source spells
the name this way).  Existing unlocked client: subtract the amount from
available and total when it does not overdraft, and push the record to
history in every sub-case.  Unknown client: create a zeroed `ClientInfo`
whose history holds this record.  Locked client or absent client id: no
mutation. -/
def handle_widthdrawal (client_map : Ledger) (record : Record) : Ledger :=
  match record.client with
  | none => client_map
  | some client_id =>
    match Ledger.lookup client_map client_id with
    | some info =>
      if info.locked then client_map
      else
        let info' :=
          match record.amount with
          | some amount =>
            if amount ≤ info.available_funds then
              { info with
                available_funds := info.available_funds - amount,
                total_funds := info.total_funds - amount }
            else info
          | none => info
        Ledger.update client_map client_id
          { info' with history := info'.history ++ [record] }
    | none =>
      Ledger.insert client_map client_id
        { history := [record], available_funds := 0, held_funds := 0,
          total_funds := 0, locked := false }

/-- Transcription of `handle_dispute` (main.rs:190).  Existing unlocked
client: find the first history record with this `tx` (any type); when found
move its amount (if present) from available to held and push the dispute
record to history; otherwise no mutation. -/
def handle_dispute (client_map : Ledger) (record : Record) : Ledger :=
  match record.client with
  | none => client_map
  | some client_id =>
    match Ledger.lookup client_map client_id with
    | some info =>
      if info.locked then client_map
      else
        match info.history.find? (fun r => r.tx == record.tx) with
        | some t =>
          let info' :=
            match t.amount with
            | some amount =>
              { info with
                available_funds := info.available_funds - amount,
                held_funds := info.held_funds + amount }
            | none => info
          Ledger.update client_map client_id
            { info' with history := info'.history ++ [record] }
        | none => client_map
    | none => client_map

/-- Transcription of `handle_resolve` (main.rs:150).  As `handle_dispute`,
but the history search excludes records whose own type is `"dispute"`, and
the found amount moves from held back to available. -/
def handle_resolve (client_map : Ledger) (record : Record) : Ledger :=
  match record.client with
  | none => client_map
  | some client_id =>
    match Ledger.lookup client_map client_id with
    | some info =>
      if info.locked then client_map
      else
        match info.history.find? (fun r => r.tx == record.tx && r.tx_type != "dispute") with
        | some t =>
          let info' :=
            match t.amount with
            | some amt =>
              { info with
                available_funds := info.available_funds + amt,
                held_funds := info.held_funds - amt }
            | none => info
          Ledger.update client_map client_id
            { info' with history := info'.history ++ [record] }
        | none => client_map
    | none => client_map

/-- Transcription of `handle_chargeback` (main.rs:116).  Existing unlocked
client: find the first history record with this `tx` (any type); when found
subtract its amount (if present) from total and held and lock the account
in either case; the chargeback record itself is not pushed to history.
Otherwise no mutation. -/
def handle_chargeback (client_map : Ledger) (record : Record) : Ledger :=
  match record.client with
  | none => client_map
  | some client_id =>
    match Ledger.lookup client_map client_id with
    | some info =>
      if info.locked then client_map
      else
        match info.history.find? (fun r => r.tx == record.tx) with
        | some t =>
          let info' :=
            match t.amount with
            | some val =>
              { info with
                total_funds := info.total_funds - val,
                held_funds := info.held_funds - val }
            | none => info
          Ledger.update client_map client_id { info' with locked := true }
        | none => client_map
    | none => client_map

/-- The `match record.tx_type.as_str()` dispatch in `run` (main.rs:59):
an unrecognized tag reaches no handler and only logs. -/
def dispatch (client_map : Ledger) (record : Record) : Ledger :=
  match record.tx_type with
  | "deposit" => handle_deposit client_map record
  | "withdrawal" => handle_widthdrawal client_map record
  | "dispute" => handle_dispute client_map record
  | "resolve" => handle_resolve client_map record
  | "chargeback" => handle_chargeback client_map record
  | _ => client_map

/-- `rng.gen::<u16>()`: the `n`-th draw of the random stream, reduced to the
16-bit range. -/
def gen_random_id (rng : Nat → Nat) (n : Nat) : Nat :=
  rng n % 65536

/-- Transcription of `generate_new_client_id` (main.rs:95): draw random
16-bit ids until one is found that is not a key of the ledger.  The retry
loop terminates exactly when the stream eventually produces a free id,
which the hypothesis `h` states; the result is the first such draw. -/
def generate_new_client_id (client_map : Ledger) (rng : Nat → Nat)
    (h : ∃ n, Ledger.containsKey client_map (gen_random_id rng n) = false) : Nat :=
  gen_random_id rng (Nat.find h)

/-- The `if record.client == None` step of `run` (main.rs:56): populate an
absent client id from the allocator before dispatch. -/
def assign_client (alloc : Ledger → Nat) (client_map : Ledger) (record : Record) : Record :=
  match record.client with
  | none => { record with client := some (alloc client_map) }
  | some _ => record

/-- One iteration of the row loop of `run` after deserialization: allocate a
client id when absent, then dispatch to the handler selected by the tag. -/
def processRecord (alloc : Ledger → Nat) (client_map : Ledger) (record : Record) : Ledger :=
  dispatch client_map (assign_client alloc client_map record)

/-- A full run over already-decoded records, starting from the empty ledger
created at the top of `run`. -/
def replay (alloc : Ledger → Nat) (records : List Record) : Ledger :=
  records.foldl (processRecord alloc) []

/-- One raw CSV data row after header mapping: the four cells of the
`type, client, tx, amount` columns as text. -/
structure RawRow where
  ty : String
  client : String
  tx : String
  amount : String
deriving Repr, DecidableEq

/-- A whitespace character, as trimmed by the reader's `Trim::All`. -/
def isBlankChar (c : Char) : Bool :=
  c == ' ' || c == '\t' || c == '\n' || c == '\r'

/-- Strip leading and trailing whitespace from a character list
(the `Trim::All` setting of the CSV reader). -/
def trimChars (cs : List Char) : List Char :=
  ((cs.dropWhile isBlankChar).reverse.dropWhile isBlankChar).reverse

/-- `Trim::All` on one cell. -/
def trimCell (s : String) : String :=
  String.mk (trimChars s.data)

/-- Accumulate the decimal digits of a numeral; any non-digit fails. -/
def parseNatAux : List Char → Nat → Option Nat
  | [], acc => some acc
  | c :: cs, acc =>
    if c.isDigit then parseNatAux cs (acc * 10 + (c.toNat - 48)) else none

/-- A non-empty all-digit numeral, as `u16`/`u32` field decoding reads one. -/
def parseNat? : List Char → Option Nat
  | [] => none
  | c :: cs => parseNatAux (c :: cs) 0

/-- Tolerant decode of the `Option<u16>` `client` cell under
`csv::invalid_option`: an empty, non-numeric or out-of-range cell becomes
`none` instead of an error. -/
def parse_u16 (s : String) : Option Nat :=
  match parseNat? (trimChars s.data) with
  | some n => if n < 65536 then some n else none
  | none => none

/-- Decode of the required `u32` `tx` cell: `none` models the `serde`
decode error that aborts the run. -/
def parse_u32 (s : String) : Option Nat :=
  match parseNat? (trimChars s.data) with
  | some n => if n < 4294967296 then some n else none
  | none => none

/-- Split a character list at every occurrence of the separator. -/
def splitOnChar (sep : Char) : List Char → List (List Char)
  | [] => [[]]
  | c :: cs =>
    if c == sep then [] :: splitOnChar sep cs
    else
      match splitOnChar sep cs with
      | [] => [[c]]
      | h :: t => (c :: h) :: t

/-- Tolerant decode of the `Option<f32>` `amount` cell under
`csv::invalid_option`: an optionally signed decimal numeral becomes its
exact rational value, anything else (empty cell included) becomes `none`. -/
def parse_decimal (s : String) : Option ℚ :=
  let t := trimChars s.data
  let core := match t with
    | c :: rest => if c == '-' then rest else t
    | [] => t
  let sign : ℚ := match t with
    | c :: _ => if c == '-' then -1 else 1
    | [] => 1
  match splitOnChar '.' core with
  | [a] =>
    match parseNat? a with
    | some n => some (sign * n)
    | none => none
  | [a, b] =>
    match parseNat? a, parseNat? b with
    | some n, some f => some (sign * (n + (f : ℚ) / 10 ^ b.length))
    | _, _ => none
  | _ => none

/-- Deserialization of one row into a `Record` (the `result?` line of `run`,
main.rs:54): a row whose `tx` cell does not decode is a structural error
that aborts the run; the tolerant `client` and `amount` cells always decode,
to `none` when empty or unparseable. -/
def parseRecord (row : RawRow) : Except String Record :=
  match parse_u32 row.tx with
  | none => Except.error ("invalid tx field: " ++ row.tx)
  | some t =>
    Except.ok
      { tx_type := trimCell row.ty, client := parse_u16 row.client, tx := t,
        amount := parse_decimal row.amount }

/-- Equality of run results is decidable (used to evaluate whole runs on
concrete inputs). -/
instance instDecEqExcept {ε α : Type} [DecidableEq ε] [DecidableEq α] :
    DecidableEq (Except ε α)
  | Except.error e, Except.error f =>
    if h : e = f then Decidable.isTrue (by rw [h])
    else Decidable.isFalse (fun hc => h (Except.error.inj hc))
  | Except.error _, Except.ok _ => Decidable.isFalse (fun hc => Except.noConfusion hc)
  | Except.ok _, Except.error _ => Decidable.isFalse (fun hc => Except.noConfusion hc)
  | Except.ok x, Except.ok y =>
    if h : x = y then Decidable.isTrue (by rw [h])
    else Decidable.isFalse (fun hc => h (Except.ok.inj hc))

/-- The row loop of `run` (main.rs:53): decode each row, abort the whole
run on the first structural decode error (the process then exits with a
non-zero code and writes no output rows), otherwise allocate a client id
when absent, dispatch, and continue; on success return the final ledger
that `run` serializes to standard output. -/
def runRows (alloc : Ledger → Nat) : Ledger → List RawRow → Except String Ledger
  | client_map, [] => Except.ok client_map
  | client_map, row :: rest =>
    match parseRecord row with
    | Except.error e => Except.error e
    | Except.ok record => runRows alloc (processRecord alloc client_map record) rest

/-- The intended per-account identity: `total_funds` agrees with
`available_funds + held_funds`. -/
def goodInfo (info : ClientInfo) : Prop :=
  info.total_funds = info.available_funds + info.held_funds

/-- Every account of the ledger satisfies `goodInfo`. -/
def goodLedger (m : Ledger) : Prop :=
  ∀ cid ci, Ledger.lookup m cid = some ci → goodInfo ci

theorem lookup_update_cases (m : Ledger) (cid : Nat) (ci : ClientInfo)
    (cid' : Nat) (ci' : ClientInfo)
    (h : Ledger.lookup (Ledger.update m cid ci) cid' = some ci') :
    ci' = ci ∨ Ledger.lookup m cid' = some ci' := by
  induction m with
  | nil => simp [Ledger.update, Ledger.lookup] at h
  | cons hd tl ih =>
    obtain ⟨k, v⟩ := hd
    by_cases hk : k = cid
    · subst hk
      simp only [Ledger.update, if_pos rfl] at h
      by_cases hk' : k = cid'
      · subst hk'
        simp only [Ledger.lookup, if_pos rfl] at h ⊢
        exact Or.inl (Option.some_injective _ h).symm
      · simp only [Ledger.lookup, if_neg hk'] at h ⊢
        exact Or.inr h
    · simp only [Ledger.update, if_neg hk] at h
      by_cases hk' : k = cid'
      · subst hk'
        simp only [Ledger.lookup, if_pos rfl] at h ⊢
        exact Or.inr h
      · simp only [Ledger.lookup, if_neg hk'] at h ⊢
        exact ih h

theorem lookup_insert_cases (m : Ledger) (cid : Nat) (ci : ClientInfo)
    (cid' : Nat) (ci' : ClientInfo)
    (h : Ledger.lookup (Ledger.insert m cid ci) cid' = some ci') :
    ci' = ci ∨ Ledger.lookup m cid' = some ci' := by
  by_cases hk : cid = cid'
  · subst hk
    simp only [Ledger.insert, Ledger.lookup, if_pos rfl] at h
    exact Or.inl (Option.some_injective _ h).symm
  · simp only [Ledger.insert, Ledger.lookup, if_neg hk] at h
    exact Or.inr h

theorem goodLedger_update (m : Ledger) (cid : Nat) (ci : ClientInfo)
    (hm : goodLedger m) (hci : goodInfo ci) :
    goodLedger (Ledger.update m cid ci) := by
  intro cid' ci' h
  rcases lookup_update_cases m cid ci cid' ci' h with h' | h'
  · exact h' ▸ hci
  · exact hm cid' ci' h'

theorem goodLedger_insert (m : Ledger) (cid : Nat) (ci : ClientInfo)
    (hm : goodLedger m) (hci : goodInfo ci) :
    goodLedger (Ledger.insert m cid ci) := by
  intro cid' ci' h
  rcases lookup_insert_cases m cid ci cid' ci' h with h' | h'
  · exact h' ▸ hci
  · exact hm cid' ci' h'

/-- C1: for every client account whose locked flag is true, dispatching any
of the five transaction records (deposit, withdrawal, dispute, resolve,
chargeback) for that client leaves the whole ledger — in particular that
account's available_funds, held_funds, total_funds, locked flag and
history — unchanged. -/
theorem claim_C1_locked_account_unchanged (m : Ledger) (record : Record)
    (cid : Nat) (info : ClientInfo) (hc : record.client = some cid)
    (hm : Ledger.lookup m cid = some info) (hl : info.locked = true) :
    handle_deposit m record = m ∧ handle_widthdrawal m record = m ∧
    handle_dispute m record = m ∧ handle_resolve m record = m ∧
    handle_chargeback m record = m := by
  refine ⟨?_, ?_, ?_, ?_, ?_⟩ <;>
    simp [handle_deposit, handle_widthdrawal, handle_dispute, handle_resolve,
      handle_chargeback, hc, hm, hl]

/-- C1 witness: a deposit of 100 against a concrete locked account changes
nothing (nor does any of the other four handlers). -/
theorem claim_C1_locked_account_unchanged_witness :
    handle_deposit [(1, ⟨[], 0, 0, 0, true⟩)] ⟨"deposit", some 1, 5, some 100⟩
        = [(1, ⟨[], 0, 0, 0, true⟩)] ∧
    handle_widthdrawal [(1, ⟨[], 0, 0, 0, true⟩)] ⟨"deposit", some 1, 5, some 100⟩
        = [(1, ⟨[], 0, 0, 0, true⟩)] ∧
    handle_dispute [(1, ⟨[], 0, 0, 0, true⟩)] ⟨"deposit", some 1, 5, some 100⟩
        = [(1, ⟨[], 0, 0, 0, true⟩)] ∧
    handle_resolve [(1, ⟨[], 0, 0, 0, true⟩)] ⟨"deposit", some 1, 5, some 100⟩
        = [(1, ⟨[], 0, 0, 0, true⟩)] ∧
    handle_chargeback [(1, ⟨[], 0, 0, 0, true⟩)] ⟨"deposit", some 1, 5, some 100⟩
        = [(1, ⟨[], 0, 0, 0, true⟩)] :=
  claim_C1_locked_account_unchanged _ _ 1 ⟨[], 0, 0, 0, true⟩ rfl (by decide) rfl

/-- C2: for every chargeback record applied to an existing unlocked client,
if some history record matches the chargeback's tx then the account becomes
locked — even when the matching record's amount is absent (the subtracted
amount defaults to 0) — and the chargeback record is not appended to the
history; if no record matches, the ledger, hence the account and its lock
state, is entirely unchanged. -/
theorem claim_C2_chargeback_locks_without_append (m : Ledger) (record : Record)
    (cid : Nat) (info : ClientInfo) (hty : record.tx_type = "chargeback")
    (hc : record.client = some cid) (hm : Ledger.lookup m cid = some info)
    (hl : info.locked = false) :
    (∀ t, info.history.find? (fun r => r.tx == record.tx) = some t →
      dispatch m record = Ledger.update m cid
        { info with
          total_funds := info.total_funds - t.amount.getD 0,
          held_funds := info.held_funds - t.amount.getD 0,
          locked := true })
    ∧ (info.history.find? (fun r => r.tx == record.tx) = none →
      dispatch m record = m) := by
  constructor
  · intro t ht
    cases hamt : t.amount with
    | none =>
      simp [dispatch, hty, handle_chargeback, hc, hm, hl, ht, hamt]
    | some v =>
      simp [dispatch, hty, handle_chargeback, hc, hm, hl, ht, hamt]
  · intro ht
    simp [dispatch, hty, handle_chargeback, hc, hm, hl, ht]

/-- C2 witness: a chargeback whose referenced history record has no amount
still locks the concrete account, without touching balances or history. -/
theorem claim_C2_chargeback_locks_without_append_witness :
    dispatch [(1, ⟨[⟨"dispute", some 1, 9, none⟩], 5, 0, 5, false⟩)]
        ⟨"chargeback", some 1, 9, none⟩
      = Ledger.update [(1, ⟨[⟨"dispute", some 1, 9, none⟩], 5, 0, 5, false⟩)] 1
          { history := [⟨"dispute", some 1, 9, none⟩],
            available_funds := 5,
            held_funds := 0 - (Option.getD (⟨"dispute", some 1, 9, none⟩ : Record).amount 0),
            total_funds := 5 - (Option.getD (⟨"dispute", some 1, 9, none⟩ : Record).amount 0),
            locked := true } :=
  (claim_C2_chargeback_locks_without_append _ _ 1
      ⟨[⟨"dispute", some 1, 9, none⟩], 5, 0, 5, false⟩ rfl rfl (by decide) rfl).1
    ⟨"dispute", some 1, 9, none⟩ (by decide)

/-- C4: for every dispute record applied to an existing unlocked client, the
handler takes the first history record whose tx matches (regardless of its
type, via the unrestricted `find?`); if found, it subtracts that record's
amount (defaulting to 0 when absent) from available_funds, adds it to
held_funds, and appends the dispute record to history in either case; if no
record matches, the ledger is unchanged. -/
theorem claim_C4_dispute_first_match_any_type (m : Ledger) (record : Record)
    (cid : Nat) (info : ClientInfo) (hty : record.tx_type = "dispute")
    (hc : record.client = some cid) (hm : Ledger.lookup m cid = some info)
    (hl : info.locked = false) :
    (∀ t, info.history.find? (fun r => r.tx == record.tx) = some t →
      dispatch m record = Ledger.update m cid
        { info with
          available_funds := info.available_funds - t.amount.getD 0,
          held_funds := info.held_funds + t.amount.getD 0,
          history := info.history ++ [record] })
    ∧ (info.history.find? (fun r => r.tx == record.tx) = none →
      dispatch m record = m) := by
  constructor
  · intro t ht
    cases hamt : t.amount with
    | none =>
      simp [dispatch, hty, handle_dispute, hc, hm, hl, ht, hamt]
    | some v =>
      simp [dispatch, hty, handle_dispute, hc, hm, hl, ht, hamt]
  · intro ht
    simp [dispatch, hty, handle_dispute, hc, hm, hl, ht]

/-- C4 witness: a dispute whose tx matches a prior deposit of 50 moves 50
from available to held and appends the dispute record to history. -/
theorem claim_C4_dispute_first_match_any_type_witness :
    dispatch [(2, ⟨[⟨"deposit", some 2, 4, some 50⟩], 50, 0, 50, false⟩)]
        ⟨"dispute", some 2, 4, none⟩
      = Ledger.update [(2, ⟨[⟨"deposit", some 2, 4, some 50⟩], 50, 0, 50, false⟩)] 2
          { history := [⟨"deposit", some 2, 4, some 50⟩, ⟨"dispute", some 2, 4, none⟩],
            available_funds := 50 - (Option.getD (⟨"deposit", some 2, 4, some 50⟩ : Record).amount 0),
            held_funds := 0 + (Option.getD (⟨"deposit", some 2, 4, some 50⟩ : Record).amount 0),
            total_funds := 50,
            locked := false } :=
  (claim_C4_dispute_first_match_any_type _ _ 2
      ⟨[⟨"deposit", some 2, 4, some 50⟩], 50, 0, 50, false⟩ rfl rfl (by decide) rfl).1
    ⟨"deposit", some 2, 4, some 50⟩ (by decide)

/-- C5: for every withdrawal record applied to an existing unlocked client:
with a present amount not exceeding available_funds, both available_funds
and total_funds decrease by the amount; with a present amount exceeding
available_funds (overdraft) the balances are unchanged; and in every
sub-case — success, overdraft, absent amount — the withdrawal record is
appended to the client's history. -/
theorem claim_C5_withdrawal_overdraft_guard (m : Ledger) (record : Record)
    (cid : Nat) (info : ClientInfo) (hty : record.tx_type = "withdrawal")
    (hc : record.client = some cid) (hm : Ledger.lookup m cid = some info)
    (hl : info.locked = false) :
    (∀ a : ℚ, record.amount = some a →
      (a ≤ info.available_funds →
        dispatch m record = Ledger.update m cid
          { info with
            available_funds := info.available_funds - a,
            total_funds := info.total_funds - a,
            history := info.history ++ [record] })
      ∧ (¬ a ≤ info.available_funds →
        dispatch m record = Ledger.update m cid
          { info with history := info.history ++ [record] }))
    ∧ (record.amount = none →
      dispatch m record = Ledger.update m cid
        { info with history := info.history ++ [record] }) := by
  constructor
  · intro a ha
    constructor
    · intro hle
      simp [dispatch, hty, handle_widthdrawal, hc, hm, hl, ha, hle]
    · intro hgt
      simp [dispatch, hty, handle_widthdrawal, hc, hm, hl, ha, hgt]
  · intro ha
    simp [dispatch, hty, handle_widthdrawal, hc, hm, hl, ha]

/-- C5 witness: with available = 10, a withdrawal of 7 succeeds (balances
drop to 3) — instantiating the success sub-case of the claim. -/
theorem claim_C5_withdrawal_overdraft_guard_witness :
    dispatch [(3, ⟨[], 10, 0, 10, false⟩)] ⟨"withdrawal", some 3, 8, some 7⟩
      = Ledger.update [(3, ⟨[], 10, 0, 10, false⟩)] 3
          { history := [⟨"withdrawal", some 3, 8, some 7⟩],
            available_funds := 10 - 7,
            held_funds := 0,
            total_funds := 10 - 7,
            locked := false } :=
  ((claim_C5_withdrawal_overdraft_guard _ _ 3 ⟨[], 10, 0, 10, false⟩
      rfl rfl (by decide) rfl).1 7 (by decide)).1 (by norm_num)

/-- C7: a record whose type tag is not one of the five recognized strings is
dispatched to no handler: the ledger is returned unchanged, so no ClientInfo
is created for an unseen client id and the record enters no history. -/
theorem claim_C7_unknown_tag_dropped (m : Ledger) (record : Record)
    (h1 : record.tx_type ≠ "deposit") (h2 : record.tx_type ≠ "withdrawal")
    (h3 : record.tx_type ≠ "dispute") (h4 : record.tx_type ≠ "resolve")
    (h5 : record.tx_type ≠ "chargeback") :
    dispatch m record = m := by
  unfold dispatch
  split
  all_goals simp_all

/-- C7 witness: a `"transfer"` row leaves the empty ledger empty. -/
theorem claim_C7_unknown_tag_dropped_witness :
    dispatch [] ⟨"transfer", some 1, 1, some 5⟩ = [] :=
  claim_C7_unknown_tag_dropped [] ⟨"transfer", some 1, 1, some 5⟩
    (by decide) (by decide) (by decide) (by decide) (by decide)

/-- C3: resolve reverses a dispute.  For an unlocked client whose history
holds a deposit of 50 with tx id 1, a dispute on tx 1 followed by a resolve
on tx 1 yields available = 50, held = 0, total = 50; the resolve search
skips records whose own type is "dispute" and so finds the original
deposit. -/
theorem claim_C3_resolve_reverses_dispute :
    dispatch (dispatch (handle_deposit [] ⟨"deposit", some 7, 1, some 50⟩)
        ⟨"dispute", some 7, 1, none⟩) ⟨"resolve", some 7, 1, none⟩
      = [(7, ⟨[⟨"deposit", some 7, 1, some 50⟩, ⟨"dispute", some 7, 1, none⟩,
              ⟨"resolve", some 7, 1, none⟩], 50, 0, 50, false⟩)]
    ∧ List.find? (fun r : Record => r.tx == 1 && r.tx_type != "dispute")
        [⟨"deposit", some 7, 1, some 50⟩, ⟨"dispute", some 7, 1, none⟩]
      = some ⟨"deposit", some 7, 1, some 50⟩ := by
  have hb : (("deposit" : String) != "dispute") = true := by decide
  constructor
  · norm_num [dispatch, handle_deposit, handle_dispute, handle_resolve,
      Ledger.lookup, Ledger.update, Ledger.insert, List.find?, hb]
  · decide

/-- C10: neither resolve nor chargeback checks that the referenced
transaction was ever disputed; each subtracts the found record's amount from
held_funds unconditionally, so a deposit of 50 followed directly by a
chargeback on its tx (no intervening dispute) ends the run with
held_funds = -50 in the output, and a deposit followed directly by a
resolve likewise ends with held_funds = -50. -/
theorem claim_C10_undisputed_chargeback_negative_held :
    replay (fun _ => 0) [⟨"deposit", some 3, 1, some 50⟩, ⟨"chargeback", some 3, 1, none⟩]
      = [(3, ⟨[⟨"deposit", some 3, 1, some 50⟩], 50, -50, 0, true⟩)]
    ∧ replay (fun _ => 0) [⟨"deposit", some 4, 1, some 50⟩, ⟨"resolve", some 4, 1, none⟩]
      = [(4, ⟨[⟨"deposit", some 4, 1, some 50⟩, ⟨"resolve", some 4, 1, none⟩],
          100, -50, 50, false⟩)]
    ∧ (-50 : ℚ) < 0 := by
  have hb : (("deposit" : String) != "dispute") = true := by decide
  refine ⟨?_, ?_, by norm_num⟩
  · norm_num [replay, processRecord, assign_client, dispatch, handle_deposit,
      handle_chargeback, Ledger.lookup, Ledger.update, Ledger.insert, List.find?]
  · norm_num [replay, processRecord, assign_client, dispatch, handle_deposit,
      handle_resolve, Ledger.lookup, Ledger.update, Ledger.insert, List.find?, hb]

/-- C6: a row that fails structural decoding (an unparseable tx cell) aborts
the whole run at that row with a fatal error — later rows are not processed
and no ledger output is produced (the process exits non-zero); rows whose
client or amount cell is empty or unparseable decode those fields to
`none` and never abort. -/
theorem claim_C6_structural_decode_aborts :
    (∀ (alloc : Ledger → Nat) (m : Ledger) (pre : List RawRow) (row : RawRow)
        (post : List RawRow) (e : String),
      (∀ r ∈ pre, ∃ rec, parseRecord r = Except.ok rec) →
      parseRecord row = Except.error e →
      runRows alloc m (pre ++ row :: post) = Except.error e)
    ∧ (∀ row t, parse_u32 row.tx = some t →
      parseRecord row = Except.ok
        { tx_type := trimCell row.ty, client := parse_u16 row.client, tx := t,
          amount := parse_decimal row.amount })
    ∧ parse_u16 "" = none ∧ parse_u16 "abc" = none
    ∧ parse_decimal "" = none ∧ parse_decimal "abc" = none := by
  refine ⟨?_, ?_, by decide, by decide, by decide, by decide⟩
  · intro alloc m pre
    induction pre generalizing m with
    | nil =>
      intro row post e _ herr
      simp [runRows, herr]
    | cons hd tl ih =>
      intro row post e hok herr
      obtain ⟨rec, hrec⟩ := hok hd (by simp)
      simp only [List.cons_append, runRows, hrec]
      exact ih _ row post e (fun r hr => hok r (by simp [hr])) herr
  · intro row t ht
    simp [parseRecord, ht]

/-- C6 witness: a run whose second cell row has tx = "oops" aborts with that
row's decode error, although a later well-formed row follows. -/
theorem claim_C6_structural_decode_aborts_witness :
    runRows (fun _ => 0) []
        ([⟨"deposit", "1", "1", ""⟩] ++ ⟨"deposit", "1", "oops", "5"⟩
          :: [⟨"deposit", "1", "2", "9"⟩])
      = Except.error "invalid tx field: oops" :=
  claim_C6_structural_decode_aborts.1 (fun _ => 0) [] [⟨"deposit", "1", "1", ""⟩]
    ⟨"deposit", "1", "oops", "5"⟩ [⟨"deposit", "1", "2", "9"⟩] _
    (by intro r hr; exact ⟨⟨"deposit", some 1, 1, none⟩, by
      simp at hr; subst hr; decide⟩)
    (by decide)

/-- C8: the client-id allocator, on a random stream that eventually produces
an id that is free in the ledger (which holds whenever the stream covers the
16-bit space and at least one 16-bit id is free), returns an id that is not
a key of the ledger at the time of generation; it is invoked only for
records whose parsed client field is absent, and the assignment happens
before the record is dispatched to any handler. -/
theorem claim_C8_allocator_fresh_before_dispatch :
    (∀ (m : Ledger) (rng : Nat → Nat)
        (h : ∃ n, Ledger.containsKey m (gen_random_id rng n) = false),
      Ledger.containsKey m (generate_new_client_id m rng h) = false)
    ∧ (∀ (m : Ledger) (rng : Nat → Nat),
      (∀ v, v < 65536 → ∃ n, gen_random_id rng n = v) →
      (∃ id, id < 65536 ∧ Ledger.containsKey m id = false) →
      ∃ n, Ledger.containsKey m (gen_random_id rng n) = false)
    ∧ (∀ (alloc : Ledger → Nat) (m : Ledger) (record : Record),
      record.client = none →
      processRecord alloc m record
        = dispatch m { record with client := some (alloc m) })
    ∧ (∀ (alloc : Ledger → Nat) (m : Ledger) (record : Record) (cid : Nat),
      record.client = some cid → processRecord alloc m record = dispatch m record) := by
  refine ⟨?_, ?_, ?_, ?_⟩
  · intro m rng h
    exact Nat.find_spec h
  · rintro m rng hsurj ⟨id, hlt, hfree⟩
    obtain ⟨n, hn⟩ := hsurj id hlt
    exact ⟨n, by rw [hn]; exact hfree⟩
  · intro alloc m record hc
    simp [processRecord, assign_client, hc]
  · intro alloc m record cid hc
    simp [processRecord, assign_client, hc]

/-- C8 witness: on the ledger holding only client 0 and the identity random
stream, the allocator's result is not a key of the ledger. -/
theorem claim_C8_allocator_fresh_before_dispatch_witness :
    Ledger.containsKey [(0, ⟨[], 0, 0, 0, false⟩)]
        (generate_new_client_id [(0, ⟨[], 0, 0, 0, false⟩)] (fun n => n)
          ⟨1, rfl⟩) = false :=
  claim_C8_allocator_fresh_before_dispatch.1 [(0, ⟨[], 0, 0, 0, false⟩)]
    (fun n => n) ⟨1, rfl⟩

theorem goodLedger_nil : goodLedger [] := by
  intro cid ci h
  simp [Ledger.lookup] at h

theorem goodLedger_handle_deposit (m : Ledger) (record : Record)
    (hm : goodLedger m) : goodLedger (handle_deposit m record) := by
  cases hc : record.client with
  | none => simpa [handle_deposit, hc] using hm
  | some cid =>
    cases hl : Ledger.lookup m cid with
    | none =>
      cases ha : record.amount with
      | none =>
        simp only [handle_deposit, hc, hl, ha]
        exact goodLedger_insert _ _ _ hm (by simp [goodInfo])
      | some v =>
        simp only [handle_deposit, hc, hl, ha]
        exact goodLedger_insert _ _ _ hm (by simp [goodInfo])
    | some info =>
      have hinfo : goodInfo info := hm cid info hl
      cases hlk : info.locked with
      | true => simpa [handle_deposit, hc, hl, hlk] using hm
      | false =>
        cases ha : record.amount with
        | none =>
          simp only [handle_deposit, hc, hl, hlk, ha, Bool.false_eq_true,
            if_false]
          exact goodLedger_update _ _ _ hm (by simpa [goodInfo] using hinfo)
        | some v =>
          simp only [handle_deposit, hc, hl, hlk, ha, Bool.false_eq_true,
            if_false]
          refine goodLedger_update _ _ _ hm ?_
          simp only [goodInfo] at hinfo ⊢
          linarith

theorem goodLedger_handle_widthdrawal (m : Ledger) (record : Record)
    (hm : goodLedger m) : goodLedger (handle_widthdrawal m record) := by
  cases hc : record.client with
  | none => simpa [handle_widthdrawal, hc] using hm
  | some cid =>
    cases hl : Ledger.lookup m cid with
    | none =>
      simp only [handle_widthdrawal, hc, hl]
      exact goodLedger_insert _ _ _ hm (by simp [goodInfo])
    | some info =>
      have hinfo : goodInfo info := hm cid info hl
      cases hlk : info.locked with
      | true => simpa [handle_widthdrawal, hc, hl, hlk] using hm
      | false =>
        cases ha : record.amount with
        | none =>
          simp only [handle_widthdrawal, hc, hl, hlk, ha, Bool.false_eq_true,
            if_false]
          exact goodLedger_update _ _ _ hm (by simpa [goodInfo] using hinfo)
        | some a =>
          by_cases hle : a ≤ info.available_funds
          · simp only [handle_widthdrawal, hc, hl, hlk, ha, hle,
              Bool.false_eq_true, if_false, if_true, if_pos]
            refine goodLedger_update _ _ _ hm ?_
            simp only [goodInfo] at hinfo ⊢
            linarith
          · simp only [handle_widthdrawal, hc, hl, hlk, ha, hle,
              Bool.false_eq_true, if_false, if_neg]
            exact goodLedger_update _ _ _ hm (by simpa [goodInfo] using hinfo)

theorem goodLedger_handle_dispute (m : Ledger) (record : Record)
    (hm : goodLedger m) : goodLedger (handle_dispute m record) := by
  cases hc : record.client with
  | none => simpa [handle_dispute, hc] using hm
  | some cid =>
    cases hl : Ledger.lookup m cid with
    | none => simpa [handle_dispute, hc, hl] using hm
    | some info =>
      have hinfo : goodInfo info := hm cid info hl
      cases hlk : info.locked with
      | true => simpa [handle_dispute, hc, hl, hlk] using hm
      | false =>
        cases hf : info.history.find? (fun r => r.tx == record.tx) with
        | none => simpa [handle_dispute, hc, hl, hlk, hf] using hm
        | some t =>
          cases ha : t.amount with
          | none =>
            simp only [handle_dispute, hc, hl, hlk, hf, ha,
              Bool.false_eq_true, if_false]
            exact goodLedger_update _ _ _ hm (by simpa [goodInfo] using hinfo)
          | some a =>
            simp only [handle_dispute, hc, hl, hlk, hf, ha,
              Bool.false_eq_true, if_false]
            refine goodLedger_update _ _ _ hm ?_
            simp only [goodInfo] at hinfo ⊢
            linarith

theorem goodLedger_handle_resolve (m : Ledger) (record : Record)
    (hm : goodLedger m) : goodLedger (handle_resolve m record) := by
  cases hc : record.client with
  | none => simpa [handle_resolve, hc] using hm
  | some cid =>
    cases hl : Ledger.lookup m cid with
    | none => simpa [handle_resolve, hc, hl] using hm
    | some info =>
      have hinfo : goodInfo info := hm cid info hl
      cases hlk : info.locked with
      | true => simpa [handle_resolve, hc, hl, hlk] using hm
      | false =>
        cases hf : info.history.find?
            (fun r => r.tx == record.tx && r.tx_type != "dispute") with
        | none => simpa [handle_resolve, hc, hl, hlk, hf] using hm
        | some t =>
          cases ha : t.amount with
          | none =>
            simp only [handle_resolve, hc, hl, hlk, hf, ha,
              Bool.false_eq_true, if_false]
            exact goodLedger_update _ _ _ hm (by simpa [goodInfo] using hinfo)
          | some a =>
            simp only [handle_resolve, hc, hl, hlk, hf, ha,
              Bool.false_eq_true, if_false]
            refine goodLedger_update _ _ _ hm ?_
            simp only [goodInfo] at hinfo ⊢
            linarith

theorem goodLedger_handle_chargeback (m : Ledger) (record : Record)
    (hm : goodLedger m) : goodLedger (handle_chargeback m record) := by
  cases hc : record.client with
  | none => simpa [handle_chargeback, hc] using hm
  | some cid =>
    cases hl : Ledger.lookup m cid with
    | none => simpa [handle_chargeback, hc, hl] using hm
    | some info =>
      have hinfo : goodInfo info := hm cid info hl
      cases hlk : info.locked with
      | true => simpa [handle_chargeback, hc, hl, hlk] using hm
      | false =>
        cases hf : info.history.find? (fun r => r.tx == record.tx) with
        | none => simpa [handle_chargeback, hc, hl, hlk, hf] using hm
        | some t =>
          cases ha : t.amount with
          | none =>
            simp only [handle_chargeback, hc, hl, hlk, hf, ha,
              Bool.false_eq_true, if_false]
            exact goodLedger_update _ _ _ hm (by simpa [goodInfo] using hinfo)
          | some v =>
            simp only [handle_chargeback, hc, hl, hlk, hf, ha,
              Bool.false_eq_true, if_false]
            refine goodLedger_update _ _ _ hm ?_
            simp only [goodInfo] at hinfo ⊢
            linarith

theorem goodLedger_dispatch (m : Ledger) (record : Record)
    (hm : goodLedger m) : goodLedger (dispatch m record) := by
  unfold dispatch
  split
  · exact goodLedger_handle_deposit m record hm
  · exact goodLedger_handle_widthdrawal m record hm
  · exact goodLedger_handle_dispute m record hm
  · exact goodLedger_handle_resolve m record hm
  · exact goodLedger_handle_chargeback m record hm
  · exact hm

theorem goodLedger_processRecord (alloc : Ledger → Nat) (m : Ledger)
    (record : Record) (hm : goodLedger m) :
    goodLedger (processRecord alloc m record) :=
  goodLedger_dispatch m (assign_client alloc m record) hm

theorem goodLedger_foldl (alloc : Ledger → Nat) (records : List Record)
    (m : Ledger) (hm : goodLedger m) :
    goodLedger (records.foldl (processRecord alloc) m) := by
  induction records generalizing m with
  | nil => exact hm
  | cons r rs ih =>
    exact ih _ (goodLedger_processRecord alloc m r hm)

theorem goodLedger_runRows (alloc : Ledger → Nat) (rows : List RawRow)
    (m m' : Ledger) (hm : goodLedger m)
    (h : runRows alloc m rows = Except.ok m') : goodLedger m' := by
  induction rows generalizing m with
  | nil =>
    simp only [runRows] at h
    exact (Except.ok.inj h) ▸ hm
  | cons row rest ih =>
    simp only [runRows] at h
    cases hp : parseRecord row with
    | error e => rw [hp] at h; exact absurd h (by simp)
    | ok record =>
      rw [hp] at h
      exact ih _ (goodLedger_processRecord alloc m record hm) h

/-- C9: in exact rational arithmetic every one of the five handlers
preserves the per-account identity total_funds = available_funds +
held_funds (deposit and withdrawal change available and total by equal
amounts, dispute and resolve move funds between available and held, and
chargeback decreases held and total by the same amount); hence the identity
holds for every account of the final ledger of every run, whether the run
is replayed over decoded records or over raw rows. -/
theorem claim_C9_total_equals_available_plus_held :
    (∀ m record, goodLedger m → goodLedger (handle_deposit m record)) ∧
    (∀ m record, goodLedger m → goodLedger (handle_widthdrawal m record)) ∧
    (∀ m record, goodLedger m → goodLedger (handle_dispute m record)) ∧
    (∀ m record, goodLedger m → goodLedger (handle_resolve m record)) ∧
    (∀ m record, goodLedger m → goodLedger (handle_chargeback m record)) ∧
    (∀ alloc records cid ci,
      Ledger.lookup (replay alloc records) cid = some ci →
      ci.total_funds = ci.available_funds + ci.held_funds) ∧
    (∀ alloc rows m' cid ci, runRows alloc [] rows = Except.ok m' →
      Ledger.lookup m' cid = some ci →
      ci.total_funds = ci.available_funds + ci.held_funds) := by
  refine ⟨goodLedger_handle_deposit, goodLedger_handle_widthdrawal,
    goodLedger_handle_dispute, goodLedger_handle_resolve,
    goodLedger_handle_chargeback, ?_, ?_⟩
  · intro alloc records cid ci h
    exact goodLedger_foldl alloc records [] goodLedger_nil cid ci h
  · intro alloc rows m' cid ci hrun h
    exact goodLedger_runRows alloc rows [] m' goodLedger_nil hrun cid ci h

/-- C9 witness: a one-record run (a deposit with an absent amount for a new
client) ends with an account satisfying total = available + held. -/
theorem claim_C9_total_equals_available_plus_held_witness :
    (⟨[⟨"deposit", some 1, 1, none⟩], 0, 0, 0, false⟩ : ClientInfo).total_funds
      = (⟨[⟨"deposit", some 1, 1, none⟩], 0, 0, 0, false⟩ : ClientInfo).available_funds
        + (⟨[⟨"deposit", some 1, 1, none⟩], 0, 0, 0, false⟩ : ClientInfo).held_funds :=
  claim_C9_total_equals_available_plus_held.2.2.2.2.2.1 (fun _ => 0)
    [⟨"deposit", some 1, 1, none⟩] 1
    ⟨[⟨"deposit", some 1, 1, none⟩], 0, 0, 0, false⟩ (by decide)

end TxProcessing
